import Mathlib

/-!
Verification of the batching subsystem of the `gfx` repository (package
`gfx`, Azul3D graphics core): the mesh merge engine (`mergeObjects` /
`Batch`) and the incremental batch index (`Batcher` with `Add`, `Remove`,
`Update`, `DrawTo`).

The embedding follows the Go source:
  * `*Shader` and `*Texture` references and the `State` value are
    represented by natural numbers; reference equality and value equality
    both become `Nat` equality.
  * `*Object` pointers are represented by an `id : Nat` field; the
    batcher's identity-keyed map and membership tests compare ids.
  * Go's `map[*Object]*batch` and the pointer graph of batches are
    flattened into a state record: batches live in a `heap` association
    list (batch id as the pointer), the batcher's live batch slice is the
    ordered list of their ids, and `batchByObj` maps object id to batch
    id.  Removing a batch from the live slice does not remove it from the
    heap, exactly as freeing nothing in Go: stale map entries can still
    reach it.
  * A run-time panic (nil dereference, `panic(...)`) is modelled by
    `Option`: `none` is a panic, and it propagates.
The mesh internals (`newMeshType`, `meshType.equals`, `Mesh.canAppend`,
`Mesh.append`, `Mesh.Copy`) are not part of the provided source; they are
modelled from the specification, and each such definition is marked.
-/

namespace Gfx

/-- Association list lookup with `Nat` keys: the value of the first entry
whose key matches, mirroring a Go map read (keys are unique in every
reachable state). -/
def lookupA {α : Type} : List (Nat × α) → Nat → Option α
  | [], _ => none
  | p :: r, k => if p.1 = k then some p.2 else lookupA r k

/-- Replace the value stored under key `k` (no effect when `k` is absent):
the in-place write through an existing pointer / map entry. -/
def setA {α : Type} (l : List (Nat × α)) (k : Nat) (v : α) : List (Nat × α) :=
  l.map (fun p => if p.1 = k then (k, v) else p)

/-- Go map assignment: replace the entry when the key is present,
otherwise add it at the end. -/
def insertA {α : Type} (l : List (Nat × α)) (k : Nat) (v : α) : List (Nat × α) :=
  if (lookupA l k).isSome then setA l k v else l ++ [(k, v)]

/-- Go `delete` on a map: drop every entry with the given key. -/
def eraseA {α : Type} (l : List (Nat × α)) (k : Nat) : List (Nat × α) :=
  l.filter (fun p => p.1 != k)

/-- Ordered concatenation of the lists produced for each element, in list
order (the shape of a Go `for ... range` loop that appends). -/
def dflat {α β : Type} (f : α → List β) : List α → List β
  | [] => []
  | a :: r => f a ++ dflat f r

/-- A vertex position; the claims only use integral coordinates, so the
scalar is `Nat`. -/
abbrev Vec3 := Nat × Nat × Nat

/-- Modelled from the spec (§3 Mesh): the mesh data the batching core
reads.  `Vertices` is the required attribute array, `Indices` is the
optional index array (empty = non-indexed), `Normals`, `Colors` and
`TexCoords` are the optional per-vertex attribute channels, and
`KeepDataOnLoad` / `Dynamic` are the caching flags that the merge engine
clears on its accumulator copy.  The mesh type itself is not under
`src/`; only its tests and callers are. -/
structure Mesh where
  Vertices : List Vec3
  Indices : List Nat
  Normals : List Vec3
  Colors : List Nat
  TexCoords : List Nat
  KeepDataOnLoad : Bool
  Dynamic : Bool
deriving DecidableEq

/-- Modelled from the spec (§3 MeshSignature): which optional attribute
channels are populated, plus indexed-or-not.  Source name: `meshType`. -/
structure MeshType where
  indexed : Bool
  hasNormals : Bool
  hasColors : Bool
  hasTexCoords : Bool
deriving DecidableEq

/-- Modelled from the spec (§4.1 `signatureOf`): reads only emptiness of
the arrays.  Source name: `newMeshType`. -/
def newMeshType (m : Mesh) : MeshType :=
  { indexed := !m.Indices.isEmpty
    hasNormals := !m.Normals.isEmpty
    hasColors := !m.Colors.isEmpty
    hasTexCoords := !m.TexCoords.isEmpty }

/-- Modelled from the spec (§4.1 `signaturesEqual`, §3): two signatures
are equal iff every presence flag matches and both are indexed or both
non-indexed.  The source's `equals` returns an error naming the first
mismatching channel (`none` = equal).  Source name: `meshType.equals`. -/
def MeshType.equals (a b : MeshType) : Option String :=
  if a.indexed ≠ b.indexed then some "indexed"
  else if a.hasNormals ≠ b.hasNormals then some "normals"
  else if a.hasColors ≠ b.hasColors then some "vertex colors"
  else if a.hasTexCoords ≠ b.hasTexCoords then some "texture coords"
  else none

/-- Modelled from the spec (§4.2): success iff the optional-attribute
presence sets are identical; index presence is not required to match.
The error names the first mismatching attribute channel. -/
def Mesh.canAppend (a b : Mesh) : Option String :=
  if a.Normals.isEmpty ≠ b.Normals.isEmpty then some "normals"
  else if a.Colors.isEmpty ≠ b.Colors.isEmpty then some "vertex colors"
  else if a.TexCoords.isEmpty ≠ b.TexCoords.isEmpty then some "texture coords"
  else none

/-- Modelled from the spec (§4.2 `append`): concatenate every attribute
array of `b` onto `a`; indices follow the three cases of §4.2 — both
indexed: offset `b`'s indices by `a`'s pre-append vertex count; `a`
indexed and `b` not: synthesize sequential indices for `b`'s vertices,
offset the same way; `a` non-indexed: the result stays non-indexed. -/
def Mesh.append (a b : Mesh) : Mesh :=
  let pre := a.Vertices.length
  let idx :=
    if a.Indices.isEmpty then ([] : List Nat)
    else if b.Indices.isEmpty then
      a.Indices ++ (List.range b.Vertices.length).map (fun i => i + pre)
    else
      a.Indices ++ b.Indices.map (fun i => i + pre)
  { Vertices := a.Vertices ++ b.Vertices
    Indices := idx
    Normals := a.Normals ++ b.Normals
    Colors := a.Colors ++ b.Colors
    TexCoords := a.TexCoords ++ b.TexCoords
    KeepDataOnLoad := a.KeepDataOnLoad
    Dynamic := a.Dynamic }

/-- Modelled from the spec (§4.3): the accumulator seed is a deep copy of
the first mesh with the `KeepDataOnLoad` / `Dynamic` flags disabled (the
bounding volume reset of the source is not observable here).  Source:
`mesh.Copy()` followed by the flag writes in `mergeObjects`. -/
def Mesh.copy (m : Mesh) : Mesh :=
  { m with KeepDataOnLoad := false, Dynamic := false }

/-- A graphics object (source type `Object`): pointer identity `id` plus
the fields the batching core reads — render state value, shader
reference, ordered texture references, ordered meshes. -/
structure Obj where
  id : Nat
  State : Nat
  Shader : Nat
  Textures : List Nat
  Meshes : List Mesh
deriving DecidableEq

/-- The mesh-folding loop of `mergeObjects`: every mesh after the very
first mesh of the very first object is (optionally type-checked and)
appended onto the accumulator.  An accumulator that was never seeded
(first object had no meshes) is the nil `batchMesh` of the source: using
it dereferences nil and panics, hence `none`. -/
def foldMeshes (checkMt : Bool) : Option Mesh → List Mesh → Option (Option Mesh)
  | acc, [] => some acc
  | acc, m :: ms =>
    match acc with
    | none => none
    | some a =>
      if checkMt && (a.canAppend m).isSome then none
      else foldMeshes checkMt (some (a.append m)) ms

/-- `mergeObjects(checkMt, objs)` from the source: panic on an empty
argument list; otherwise build one object with the first object's state,
shader and (copied) textures, seed the batch mesh from the first mesh of
the first object, and fold every remaining mesh into it in encounter
order.  When no mesh was ever seeded the result keeps an empty mesh
list.  The merged object is a fresh `NewObject()`; its identity is
irrelevant to the batcher, fixed here as `0`. -/
def mergeObjects (checkMt : Bool) (objs : List Obj) : Option Obj :=
  match objs with
  | [] => none
  | o0 :: rest =>
    let seed : Option Mesh × List Mesh :=
      match o0.Meshes with
      | [] => (none, [])
      | m0 :: ms => (some m0.copy, ms)
    match foldMeshes checkMt seed.1 (seed.2 ++ dflat (fun o => o.Meshes) rest) with
    | none => none
    | some acc =>
      some
        { id := 0
          State := o0.State
          Shader := o0.Shader
          Textures := o0.Textures
          Meshes := match acc with | none => [] | some m => [m] }

/-- `Batch(objs...)` from the source: `mergeObjects` with the mesh type
check enabled. -/
def Batch (objs : List Obj) : Option Obj :=
  mergeObjects true objs

/-- One batch of the batcher (source type `batch`): the optional cached
merged object (`none` = dirty, must be re-merged before drawing), the
classification key (state, shader, copied texture list, optional mesh
type — `none` marks the mixed / undefined signature case), and the member
objects in insertion order. -/
structure BatchT where
  Object : Option Obj
  stateType : Nat
  shaderType : Nat
  textureType : List Nat
  meshType : Option MeshType
  objects : List Obj
deriving DecidableEq

/-- The batcher state (source type `Batcher`): `batches` is the ordered
slice of live batch ids, `heap` holds every batch ever allocated (Go
pointers are never invalidated, so a batch removed from the slice is
still reachable through a stale map entry), `batchByObj` maps object id
to batch id, and `nextId` is the allocation counter. -/
structure Batcher where
  batches : List Nat
  heap : List (Nat × BatchT)
  batchByObj : List (Nat × Nat)
  nextId : Nat
deriving DecidableEq

/-- Read a batch through its pointer. -/
def heapGet (s : Batcher) (bid : Nat) : Option BatchT :=
  lookupA s.heap bid

/-- Write a batch through its pointer (in-place mutation of the pointee). -/
def heapSet (s : Batcher) (bid : Nat) (bt : BatchT) : Batcher :=
  { s with heap := setA s.heap bid bt }

/-- The mesh loop of `batch.matches`: each mesh of the object is compared
against `*b.meshType`.  The source dereferences `b.meshType`
unconditionally inside the loop, so a mixed-signature batch (`meshType =
none`) checked against an object with at least one mesh dereferences nil
and panics: `none`.  With no meshes the loop body never runs. -/
def meshLoop : List Mesh → Option MeshType → Option Bool
  | [], _ => some true
  | m :: ms, mtOpt =>
    match mtOpt with
    | none => none
    | some mt =>
      if ((newMeshType m).equals mt).isSome then some false
      else meshLoop ms (some mt)

/-- `batch.matches(obj)` from the source: equal shader reference, equal
texture list length and positional texture equality, equal state value,
then the per-mesh signature loop.  After the length test the positional
loop is exactly list equality.  `some b` is the returned boolean, `none`
the nil-meshType panic. -/
def BatchT.matches (bt : BatchT) (o : Obj) : Option Bool :=
  if o.Shader ≠ bt.shaderType then some false
  else if o.Textures.length ≠ bt.textureType.length then some false
  else if o.Textures ≠ bt.textureType then some false
  else if o.State ≠ bt.stateType then some false
  else meshLoop o.Meshes bt.meshType

/-- The search loop of `Batcher.findBatch`: first live batch whose
`matches` returns true; `some none` when no batch matches, `none` when a
`matches` call panics. -/
def findGo (s : Batcher) (o : Obj) : List Nat → Option (Option Nat)
  | [] => some none
  | bid :: rest =>
    match heapGet s bid with
    | none => findGo s o rest
    | some bt =>
      match bt.matches o with
      | none => none
      | some true => some (some bid)
      | some false => findGo s o rest

/-- `Batcher.findBatch(obj)` from the source: linear search over the live
batches in order. -/
def findBatch (s : Batcher) (o : Obj) : Option (Option Nat) :=
  findGo s o s.batches

/-- The batch `Batcher.newBatch(obj)` allocates: keyed by the object's
state, shader, a copy of its texture slice, and its mesh type — the
first mesh's type when every mesh of the object agrees with it, `none`
(mixed) when some mesh disagrees or the object has no meshes. -/
def newBatchOf (o : Obj) : BatchT :=
  { Object := none
    stateType := o.State
    shaderType := o.Shader
    textureType := o.Textures
    meshType :=
      match o.Meshes with
      | [] => none
      | m0 :: _ =>
        if o.Meshes.all (fun m => ((newMeshType m).equals (newMeshType m0)).isNone)
        then some (newMeshType m0)
        else none
    objects := [o] }

/-- `Batcher.newBatch(obj)` from the source: append the batch built by
`newBatchOf` to the live slice under a fresh id and index the object. -/
def newBatch (s : Batcher) (o : Obj) : Batcher :=
  { batches := s.batches ++ [s.nextId]
    heap := s.heap ++ [(s.nextId, newBatchOf o)]
    batchByObj := insertA s.batchByObj o.id s.nextId
    nextId := s.nextId + 1 }

/-- `Batcher.addToBatch(obj, bt)` from the source: append the object to
the batch's member slice, index it, and clear the cached merged object. -/
def addToBatch (s : Batcher) (o : Obj) (bid : Nat) : Batcher :=
  match heapGet s bid with
  | none => { s with batchByObj := insertA s.batchByObj o.id bid }
  | some bt =>
    { s with
      heap := setA s.heap bid { bt with objects := bt.objects ++ [o], Object := none }
      batchByObj := insertA s.batchByObj o.id bid }

/-- `Batcher.removeFromBatch(obj, bt)` from the source: when the batch's
member slice is exactly `[obj]`, remove the batch itself from the live
slice and return — the source returns before reaching the
`delete(b.batchByObj, obj)` below, so the index entry survives.
Otherwise drop the object from the member slice, delete its index entry,
and clear the cached merged object. -/
def removeFromBatch (s : Batcher) (o : Obj) (bid : Nat) : Batcher :=
  match heapGet s bid with
  | none => s
  | some bt =>
    match bt.objects with
    | [q] =>
      if q.id = o.id then
        { s with batches := s.batches.filter (fun b => b != bid) }
      else
        { heapSet s bid
            { bt with objects := bt.objects.filter (fun p => p.id != o.id), Object := none }
          with batchByObj := eraseA s.batchByObj o.id }
    | _ =>
      { heapSet s bid
          { bt with objects := bt.objects.filter (fun p => p.id != o.id), Object := none }
        with batchByObj := eraseA s.batchByObj o.id }

/-- The per-object body of `Batcher.Add`: an already tracked object only
has its batch's cache cleared; an untracked one is placed by `findBatch`
into the first matching batch, or seeds a new batch. -/
def addOne (s : Batcher) (o : Obj) : Option Batcher :=
  match lookupA s.batchByObj o.id with
  | some bid =>
    some
      (match heapGet s bid with
       | none => s
       | some bt => heapSet s bid { bt with Object := none })
  | none =>
    match findBatch s o with
    | none => none
    | some (some bid) => some (addToBatch s o bid)
    | some none => some (newBatch s o)

/-- `Batcher.Add(objs...)` from the source: the loop over the argument
objects; a panic anywhere aborts. -/
def Add : Batcher → List Obj → Option Batcher
  | s, [] => some s
  | s, o :: rest =>
    match addOne s o with
    | none => none
    | some s' => Add s' rest

/-- The per-object body of `Batcher.Remove`: untracked objects are
ignored, tracked ones go through `removeFromBatch`. -/
def removeOne (s : Batcher) (o : Obj) : Batcher :=
  match lookupA s.batchByObj o.id with
  | none => s
  | some bid => removeFromBatch s o bid

/-- `Batcher.Remove(objs...)` from the source. -/
def Remove : Batcher → List Obj → Batcher
  | s, [] => s
  | s, o :: rest => Remove (removeOne s o) rest

/-- The per-object body of `Batcher.Update`: an untracked object gets a
new batch immediately (no `findBatch` search); a tracked object that
still matches its batch only has the cache cleared; otherwise it is
removed from the old batch and re-homed through `findBatch` /
`addToBatch` / `newBatch`. -/
def updateOne (s : Batcher) (o : Obj) : Option Batcher :=
  match lookupA s.batchByObj o.id with
  | none => some (newBatch s o)
  | some bid =>
    match heapGet s bid with
    | none => some s
    | some bt =>
      match bt.matches o with
      | none => none
      | some true => some (heapSet s bid { bt with Object := none })
      | some false =>
        let s1 := removeFromBatch s o bid
        match findBatch s1 o with
        | none => none
        | some (some wb) => some (addToBatch s1 o wb)
        | some none => some (newBatch s1 o)

/-- `Batcher.Update(objs...)` from the source. -/
def Update : Batcher → List Obj → Option Batcher
  | s, [] => some s
  | s, o :: rest =>
    match updateOne s o with
    | none => none
    | some s' => Update s' rest

/-- The draws `DrawTo` issues for one batch, read off the current state:
a mixed / undefined mesh type draws every member individually, otherwise
the batch draws its cached merged object, re-merged first when the cache
is `none`. -/
def drawsOf : Option BatchT → List Obj
  | none => []
  | some bt =>
    if bt.meshType.isNone then bt.objects
    else
      match bt.Object with
      | some m => [m]
      | none =>
        match mergeObjects false bt.objects with
        | some m => [m]
        | none => []

/-- The draws of one live batch id. -/
def batchDraws (s : Batcher) (bid : Nat) : List Obj :=
  drawsOf (heapGet s bid)

/-- The cache refresh one `DrawTo` pass applies to a batch: untouched
when the mesh type is mixed or the cache is already present, otherwise
the cache is filled with the unchecked merge of the members. -/
def refreshed (bt : BatchT) : BatchT :=
  if bt.meshType.isNone || bt.Object.isSome then bt
  else { bt with Object := mergeObjects false bt.objects }

/-- The loop of `Batcher.DrawTo` over the live batches: accumulate the
canvas `Draw` calls in order while filling stale caches; a panic inside
`mergeObjects` aborts. -/
def drawGo : Batcher → List Nat → Option (List Obj × Batcher)
  | s, [] => some ([], s)
  | s, bid :: rest =>
    match heapGet s bid with
    | none => drawGo s rest
    | some bt =>
      if bt.meshType.isNone then
        match drawGo s rest with
        | none => none
        | some (log, s') => some (bt.objects ++ log, s')
      else
        match bt.Object with
        | some m =>
          match drawGo s rest with
          | none => none
          | some (log, s') => some (m :: log, s')
        | none =>
          match mergeObjects false bt.objects with
          | none => none
          | some m =>
            match drawGo (heapSet s bid { bt with Object := some m }) rest with
            | none => none
            | some (log, s') => some (m :: log, s')

/-- `Batcher.DrawTo(c, r, cam)` from the source.  The canvas, rectangle
and camera are pass-through; the observable effect is the ordered list of
objects handed to `c.Draw` plus the updated state. -/
def DrawTo (s : Batcher) : Option (List Obj × Batcher) :=
  drawGo s s.batches

/-- `NewBatcher(objs...)` from the source: an empty batcher with the
objects added. -/
def NewBatcher (objs : List Obj) : Option Batcher :=
  Add { batches := [], heap := [], batchByObj := [], nextId := 0 } objs

/-- Number of members of a list of objects carrying a given object id. -/
def occCount (oid : Nat) : List Obj → Nat
  | [] => 0
  | o :: r => (if o.id = oid then 1 else 0) + occCount oid r

/-- The tracking invariant claimed for the batcher: every indexed object
id maps to a batch that is in the live batch list, appears exactly once
in that batch's member list, and in no other live batch. -/
def BatcherInvariant (s : Batcher) : Prop :=
  ∀ oid bid, lookupA s.batchByObj oid = some bid →
    bid ∈ s.batches ∧
    (∀ bt, heapGet s bid = some bt → occCount oid bt.objects = 1) ∧
    (∀ bid', bid' ∈ s.batches → bid' ≠ bid → ∀ bt',
      heapGet s bid' = some bt' → occCount oid bt'.objects = 0)

/-- Well-formedness of a batcher state, as established by construction in
every reachable state: heap keys and live batch ids are below the
allocation counter, and every member of a live batch is indexed to that
batch.  (The converse — every index entry points to a live batch — is
exactly what `Remove` breaks, so it is not part of this predicate.) -/
def WF (s : Batcher) : Prop :=
  (∀ p ∈ s.heap, p.1 < s.nextId) ∧
  (∀ bid ∈ s.batches, bid < s.nextId) ∧
  (∀ bid ∈ s.batches, ∀ q ∈ s.heap, q.1 = bid →
    ∀ o ∈ q.2.objects, lookupA s.batchByObj o.id = some bid)

/-- The texture-slice store: a Go slice header points at a backing array;
the store maps a slice id to the array's current element list.  Used to
make the aliasing behaviour of `newBatch`'s texture copy explicit. -/
abbrev TexStore := Nat → List Nat

/-- In-place replacement of the elements of one slice. -/
def storeUpdate (σ : TexStore) (sid : Nat) (l : List Nat) : TexStore :=
  fun k => if k = sid then l else σ k

/-- An object whose `Textures` field is, as in Go, a reference
(`texSid`) to a mutable slice in the store. -/
structure ObjS where
  id : Nat
  State : Nat
  Shader : Nat
  texSid : Nat
  Meshes : List Mesh

/-- `batch.matches` with the texture reads made explicit through the
store: `textureType` is the list value the batch holds, and the object's
current textures are read as `σ o.texSid`.  Same check order as
`BatchT.matches`. -/
def matchesS (shaderType : Nat) (textureType : List Nat) (stateType : Nat)
    (meshType : Option MeshType) (o : ObjS) (σ : TexStore) : Option Bool :=
  if o.Shader ≠ shaderType then some false
  else if (σ o.texSid).length ≠ textureType.length then some false
  else if σ o.texSid ≠ textureType then some false
  else if o.State ≠ stateType then some false
  else meshLoop o.Meshes meshType

/-- The texture classification key `newBatch` captures for an object: the
`make` + `copy` in the source take the element-wise value of the object's
slice at creation time, not the slice reference. -/
def newBatchTexKey (o : ObjS) (σ : TexStore) : List Nat :=
  σ o.texSid

/-- A mesh-less object; its batch gets the undefined (`none`) mesh type
and matches any other mesh-less object with the same key. -/
def ca : Obj := { id := 1, State := 0, Shader := 0, Textures := [], Meshes := [] }

/-- A second, untracked mesh-less object with the same classification key
as `ca`. -/
def cx : Obj := { id := 2, State := 0, Shader := 0, Textures := [], Meshes := [] }

/-- The batcher obtained from `NewBatcher [ca]`: one live batch (id `0`)
holding `ca` alone, with the undefined mesh type. -/
def sCA : Batcher :=
  { batches := [0]
    heap := [(0,
      { Object := none, stateType := 0, shaderType := 0, textureType := []
        meshType := none, objects := [ca] })]
    batchByObj := [(1, 0)]
    nextId := 1 }

/-- A mesh with only the required vertex array populated. -/
def mPlain : Mesh :=
  { Vertices := [(0, 0, 0)], Indices := [], Normals := [], Colors := []
    TexCoords := [], KeepDataOnLoad := false, Dynamic := false }

/-- A mesh that additionally populates the vertex-color channel, so its
signature differs from `mPlain`'s. -/
def mColored : Mesh :=
  { Vertices := [(0, 0, 0)], Indices := [], Normals := [], Colors := [1]
    TexCoords := [], KeepDataOnLoad := false, Dynamic := false }

/-- An object whose two meshes disagree in signature: its batch gets the
mixed (`none`) mesh type. -/
def mixedObj : Obj :=
  { id := 1, State := 0, Shader := 0, Textures := [], Meshes := [mPlain, mColored] }

/-- An object with one mesh and the same shader / textures / state as
`mixedObj`, so `matches` reaches the mesh-signature loop against the
mixed batch. -/
def probe : Obj :=
  { id := 2, State := 0, Shader := 0, Textures := [], Meshes := [mPlain] }

/-- An object with shader `5` and one plain mesh. -/
def o1c : Obj := { id := 1, State := 0, Shader := 5, Textures := [], Meshes := [mPlain] }

/-- An object with shader `9` — a different shader than `o1c` — and a
mesh of the same signature. -/
def o2c : Obj := { id := 2, State := 0, Shader := 9, Textures := [], Meshes := [mPlain] }

/-- The indexed mesh of the append test: vertices
`[(0,1,2),(3,4,5),(6,7,8)]`, indices `[2,1,0]`. -/
def aM : Mesh :=
  { Vertices := [(0, 1, 2), (3, 4, 5), (6, 7, 8)], Indices := [2, 1, 0]
    Normals := [], Colors := [], TexCoords := [], KeepDataOnLoad := false, Dynamic := false }

/-- The non-indexed mesh of the append test: vertices
`[(8,7,6),(5,4,3),(2,1,0)]`, no indices. -/
def bM : Mesh :=
  { Vertices := [(8, 7, 6), (5, 4, 3), (2, 1, 0)], Indices := []
    Normals := [], Colors := [], TexCoords := [], KeepDataOnLoad := false, Dynamic := false }

/-- An object with one plain mesh, for the draw-time witnesses. -/
def a1 : Obj := { id := 1, State := 0, Shader := 0, Textures := [], Meshes := [mPlain] }

/-- The signature of `mPlain`: non-indexed, no optional channels. -/
def mtPlain : MeshType :=
  { indexed := false, hasNormals := false, hasColors := false, hasTexCoords := false }

/-- The object `mergeObjects false [a1]` produces: a fresh object with
`a1`'s key and the copied mesh. -/
def mergedA1 : Obj := { id := 0, State := 0, Shader := 0, Textures := [], Meshes := [mPlain] }

/-- The batch `NewBatcher [a1]` creates. -/
def btA1 : BatchT :=
  { Object := none, stateType := 0, shaderType := 0, textureType := []
    meshType := some mtPlain, objects := [a1] }

/-- The batcher `NewBatcher [a1]` returns. -/
def sA1 : Batcher :=
  { batches := [0], heap := [(0, btA1)], batchByObj := [(1, 0)], nextId := 1 }

/-- The state after one `DrawTo` pass over `sA1`: the cache of batch `0`
is filled with the merged object. -/
def sA1d : Batcher :=
  { sA1 with heap := [(0, { btA1 with Object := some mergedA1 })] }

/-- A mesh-less object for the idempotent-re-add witness. -/
def cw : Obj := { id := 7, State := 0, Shader := 0, Textures := [], Meshes := [] }

/-- The empty batcher. -/
def s0w : Batcher := { batches := [], heap := [], batchByObj := [], nextId := 0 }

/-- The batcher after `Add s0w [cw]`: one fresh batch holding `cw`. -/
def s1w : Batcher :=
  { batches := [0]
    heap := [(0,
      { Object := none, stateType := 0, shaderType := 0, textureType := []
        meshType := none, objects := [cw] })]
    batchByObj := [(7, 0)]
    nextId := 1 }

/-- A store in which every texture slice is empty. -/
def sigma0 : TexStore := fun _ => []

/-- A store-model object holding slice `0`. -/
def xS : ObjS := { id := 1, State := 0, Shader := 0, texSid := 0, Meshes := [] }

/-- A store-model object holding slice `1`, distinct from `xS`'s. -/
def oS : ObjS := { id := 2, State := 0, Shader := 0, texSid := 1, Meshes := [] }

theorem lookupA_cons {α : Type} (p : Nat × α) (r : List (Nat × α)) (k : Nat) :
    lookupA (p :: r) k = if p.1 = k then some p.2 else lookupA r k :=
  rfl

theorem setA_cons {α : Type} (p : Nat × α) (r : List (Nat × α)) (k : Nat) (v : α) :
    setA (p :: r) k v = (if p.1 = k then (k, v) else p) :: setA r k v :=
  rfl

theorem lookupA_setA_self {α : Type} (l : List (Nat × α)) (k : Nat) (v : α) :
    lookupA (setA l k v) k = (lookupA l k).map (fun _ => v) := by
  induction l with
  | nil => rfl
  | cons p r ih =>
    by_cases h : p.1 = k
    · rw [setA_cons, if_pos h, lookupA_cons, lookupA_cons, if_pos h]
      simp
    · rw [setA_cons, if_neg h, lookupA_cons, lookupA_cons, if_neg h, if_neg h, ih]

theorem lookupA_setA_ne {α : Type} (l : List (Nat × α)) (k k' : Nat) (v : α)
    (h : k' ≠ k) : lookupA (setA l k v) k' = lookupA l k' := by
  induction l with
  | nil => rfl
  | cons p r ih =>
    by_cases hp : p.1 = k
    · rw [setA_cons, if_pos hp, lookupA_cons, lookupA_cons, ih]
      rw [if_neg (fun hk : k = k' => h hk.symm),
        if_neg (fun hpk : p.1 = k' => h (hp.symm.trans hpk).symm)]
    · rw [setA_cons, if_neg hp, lookupA_cons, lookupA_cons, ih]

theorem lookupA_append_of_none {α : Type} (l r : List (Nat × α)) (k : Nat)
    (h : lookupA l k = none) : lookupA (l ++ r) k = lookupA r k := by
  induction l with
  | nil => rfl
  | cons p t ih =>
    simp only [lookupA] at h ⊢
    by_cases hp : p.1 = k
    · rw [if_pos hp] at h; exact absurd h (by simp)
    · rw [if_neg hp] at h ⊢; exact ih h

theorem lookupA_append_of_some {α : Type} (l r : List (Nat × α)) (k : Nat) (v : α)
    (h : lookupA l k = some v) : lookupA (l ++ r) k = some v := by
  induction l with
  | nil => exact absurd h (by simp [lookupA])
  | cons p t ih =>
    simp only [lookupA] at h ⊢
    by_cases hp : p.1 = k
    · rw [if_pos hp] at h ⊢; exact h
    · rw [if_neg hp] at h ⊢; exact ih h

theorem lookupA_append_single_ne {α : Type} (l : List (Nat × α)) (k f : Nat) (v : α)
    (h : k ≠ f) : lookupA (l ++ [(f, v)]) k = lookupA l k := by
  cases hl : lookupA l k with
  | none =>
    rw [lookupA_append_of_none l _ k hl, lookupA_cons, if_neg (fun hf : f = k => h hf.symm)]
    rfl
  | some w => exact lookupA_append_of_some l _ k w hl

theorem lookupA_none_of_forall {α : Type} (l : List (Nat × α)) (k : Nat)
    (h : ∀ p ∈ l, p.1 ≠ k) : lookupA l k = none := by
  induction l with
  | nil => rfl
  | cons p t ih =>
    simp only [lookupA]
    rw [if_neg (h p (List.mem_cons_self p t))]
    exact ih (fun q hq => h q (List.mem_cons_of_mem p hq))

theorem lookupA_mem {α : Type} (l : List (Nat × α)) (k : Nat) (v : α)
    (h : lookupA l k = some v) : (k, v) ∈ l := by
  induction l with
  | nil => exact absurd h (by simp [lookupA])
  | cons p t ih =>
    simp only [lookupA] at h
    by_cases hp : p.1 = k
    · rw [if_pos hp] at h
      injection h with h
      have : p = (k, v) := by
        cases p
        simp only [Prod.mk.injEq]
        exact ⟨hp, h⟩
      exact this ▸ List.mem_cons_self p t
    · rw [if_neg hp] at h
      exact List.mem_cons_of_mem p (ih h)

theorem lookupA_insertA_self {α : Type} (l : List (Nat × α)) (k : Nat) (v : α) :
    lookupA (insertA l k v) k = some v := by
  unfold insertA
  by_cases h : (lookupA l k).isSome
  · rw [if_pos h, lookupA_setA_self]
    cases hl : lookupA l k with
    | none => rw [hl] at h; exact absurd h (by simp)
    | some w => simp
  · rw [if_neg h]
    have hn : lookupA l k = none := by
      cases hl : lookupA l k with
      | none => rfl
      | some w => rw [hl] at h; exact absurd (by simp) h
    rw [lookupA_append_of_none l _ k hn]
    simp [lookupA]

theorem lookupA_insertA_ne {α : Type} (l : List (Nat × α)) (k k' : Nat) (v : α)
    (h : k' ≠ k) : lookupA (insertA l k v) k' = lookupA l k' := by
  unfold insertA
  by_cases hs : (lookupA l k).isSome
  · rw [if_pos hs]; exact lookupA_setA_ne l k k' v h
  · rw [if_neg hs]; exact lookupA_append_single_ne l k' k v h

theorem dflat_congr {α β : Type} (f g : α → List β) (l : List α)
    (h : ∀ a ∈ l, f a = g a) : dflat f l = dflat g l := by
  induction l with
  | nil => rfl
  | cons a t ih =>
    simp only [dflat]
    rw [h a (List.mem_cons_self a t), ih (fun b hb => h b (List.mem_cons_of_mem a hb))]

theorem occCount_append (oid : Nat) (l r : List Obj) :
    occCount oid (l ++ r) = occCount oid l + occCount oid r := by
  induction l with
  | nil => simp [occCount]
  | cons o t ih =>
    show (if o.id = oid then 1 else 0) + occCount oid (t ++ r)
        = (if o.id = oid then 1 else 0) + occCount oid t + occCount oid r
    rw [ih, Nat.add_assoc]

theorem occCount_eq_zero (oid : Nat) (l : List Obj)
    (h : ∀ o ∈ l, o.id ≠ oid) : occCount oid l = 0 := by
  induction l with
  | nil => rfl
  | cons o t ih =>
    simp only [occCount]
    rw [if_neg (h o (List.mem_cons_self o t)), ih (fun q hq => h q (List.mem_cons_of_mem o hq))]

theorem findGo_sound (s : Batcher) (o : Obj) (l : List Nat) (bid : Nat)
    (h : findGo s o l = some (some bid)) :
    bid ∈ l ∧ ∃ bt, heapGet s bid = some bt := by
  induction l with
  | nil => simp [findGo] at h
  | cons b rest ih =>
    simp only [findGo] at h
    cases hg : heapGet s b with
    | none =>
      simp only [hg] at h
      obtain ⟨hm, hex⟩ := ih h
      exact ⟨List.mem_cons_of_mem b hm, hex⟩
    | some bt =>
      simp only [hg] at h
      cases hmt : bt.matches o with
      | none => rw [hmt] at h; exact absurd h (by simp)
      | some bv =>
        rw [hmt] at h
        cases bv with
        | true =>
          simp only [Option.some.injEq] at h
          exact ⟨h ▸ List.mem_cons_self b rest, bt, h ▸ hg⟩
        | false =>
          obtain ⟨hm, hex⟩ := ih h
          exact ⟨List.mem_cons_of_mem b hm, hex⟩

theorem addToBatch_eq (s : Batcher) (x : Obj) (bid : Nat) (bt : BatchT)
    (hbt : heapGet s bid = some bt) :
    addToBatch s x bid =
      { s with
        heap := setA s.heap bid { bt with objects := bt.objects ++ [x], Object := none }
        batchByObj := insertA s.batchByObj x.id bid } := by
  unfold addToBatch
  rw [hbt]

/-- Claim C1: the claim states that `Update x` and `Remove x; Add x`
always leave the batcher observably identical.  This fails when `x` is
untracked and an existing batch matches it: starting from a batcher that
tracks only `ca`, updating the untracked, key-identical `cx` creates a
second batch (2 live batches), while removing then adding `cx` joins
`ca`'s batch (1 live batch) — `Update` skips the `findBatch` search in
its untracked branch. -/
theorem update_differs_from_remove_then_add :
    ((NewBatcher [ca]).bind (fun s => Update s [cx])).map (fun s => s.batches.length)
      = some 2 ∧
    ((NewBatcher [ca]).bind (fun s => Add (Remove s [cx]) [cx])).map
        (fun s => s.batches.length)
      = some 1 := by
  decide

/-- Claim C2: the claim states that `Remove x` deletes `x` from the
object-to-batch index.  On a batcher whose only object `ca` is the sole
member of its batch, `Remove [ca]` deletes the batch from the live list
(first component `[]`) but returns before the index deletion, so the
index still maps `ca` to the deleted batch id `0` (second component
`some 0`). -/
theorem remove_sole_member_keeps_index_entry :
    (NewBatcher [ca]).map
        (fun s => ((Remove s [ca]).batches, lookupA (Remove s [ca]).batchByObj ca.id))
      = some ([], some 0) := by
  decide

/-- Claim C3: the claim states the tracking invariant is preserved by
every operation.  `Remove` violates it: after removing the sole member
`ca`, the index still maps `ca.id` to batch `0`, which is no longer in
the live batch list. -/
theorem remove_breaks_tracking_invariant :
    NewBatcher [ca] = some sCA ∧ ¬ BatcherInvariant (Remove sCA [ca]) := by
  refine ⟨by decide, fun h => ?_⟩
  exact absurd (h ca.id 0 (by decide)).1 (by decide)

/-- Claim C4: the claim states that `matches` is total and skips the
mesh-signature check for a mixed-signature (nil mesh type) batch.  The
source dereferences `b.meshType` unconditionally inside the mesh loop:
against the mixed batch created for `mixedObj`, checking `probe` (one
mesh, same shader / textures / state) dereferences nil and panics, so
`NewBatcher [mixedObj, probe]` crashes instead of classifying `probe`. -/
theorem matches_mixed_batch_panics :
    NewBatcher [mixedObj, probe] = none ∧
    BatchT.matches
        { Object := none, stateType := 0, shaderType := 0, textureType := []
          meshType := none, objects := [mixedObj] } probe
      = none := by
  decide

/-- Claim C6: the claim (and the source's own doc comment) states that
`Batch` panics when the objects do not share the same state, shader and
texture list.  `mergeObjects` never compares those fields: on `o1c` and
`o2c`, which differ in shader, `Batch` returns normally and silently
stamps the result with `o1c`'s shader. -/
theorem batch_accepts_mismatched_shader :
    o1c.Shader ≠ o2c.Shader ∧
    (Batch [o1c, o2c]).isSome = true ∧
    (Batch [o1c, o2c]).map (fun o => o.Shader) = some 5 := by
  decide

/-- Claim C7: appending the non-indexed mesh `bM` onto the indexed mesh
`aM` passes `canAppend`, concatenates the vertex arrays, and appends the
synthesized sequential indices for `bM`'s vertices offset by `aM`'s
pre-append vertex count `3`. -/
theorem mesh_append_indexed_then_nonindexed :
    Mesh.canAppend aM bM = none ∧
    (Mesh.append aM bM).Vertices
      = [(0, 1, 2), (3, 4, 5), (6, 7, 8), (8, 7, 6), (5, 4, 3), (2, 1, 0)] ∧
    (Mesh.append aM bM).Indices = [2, 1, 0, 3, 4, 5] := by
  decide

theorem Add_single (s : Batcher) (x : Obj) : Add s [x] = addOne s x := by
  show (match addOne s x with | none => none | some t => Add t []) = addOne s x
  cases addOne s x with
  | none => rfl
  | some t => rfl

/-- Claim C8: for an untracked object `x` in a well-formed state, after
`Add [x]; Add [x]` the object sits in exactly one live batch (multiplicity
one there, zero in every other live batch), and that batch's cached
merged object is cleared.  The second `Add` cannot panic: it takes the
tracked branch and only clears the cache. -/
theorem add_twice_single_membership
    (s : Batcher) (x : Obj) (hwf : WF s)
    (hx : lookupA s.batchByObj x.id = none)
    (s1 : Batcher) (h1 : Add s [x] = some s1) :
    ∃ s2, Add s1 [x] = some s2 ∧
      ∃ bid bt,
        lookupA s2.batchByObj x.id = some bid ∧
        bid ∈ s2.batches ∧
        heapGet s2 bid = some bt ∧
        occCount x.id bt.objects = 1 ∧
        bt.Object = none ∧
        ∀ bid' ∈ s2.batches, bid' ≠ bid → ∀ bt',
          heapGet s2 bid' = some bt' → occCount x.id bt'.objects = 0 := by
  obtain ⟨wf1, wf2, wf3⟩ := hwf
  rw [Add_single] at h1
  simp only [addOne, hx] at h1
  cases hf : findBatch s x with
  | none => rw [hf] at h1; exact absurd h1 (by simp)
  | some ob =>
    cases ob with
    | some bid =>
      rw [hf] at h1
      replace h1 : addToBatch s x bid = s1 := Option.some.inj h1
      obtain ⟨hmem, bt, hbt⟩ := findGo_sound s x s.batches bid hf
      have hs1 : s1 =
          { s with
            heap := setA s.heap bid { bt with objects := bt.objects ++ [x], Object := none }
            batchByObj := insertA s.batchByObj x.id bid } := by
        rw [← h1, addToBatch_eq s x bid bt hbt]
      have hlook1 : lookupA s1.batchByObj x.id = some bid := by
        rw [hs1]; exact lookupA_insertA_self s.batchByObj x.id bid
      have hheap1 : lookupA s1.heap bid
          = some { bt with objects := bt.objects ++ [x], Object := none } := by
        rw [hs1]
        show lookupA (setA s.heap bid _) bid = _
        rw [lookupA_setA_self]
        rw [show heapGet s bid = lookupA s.heap bid from rfl] at hbt
        rw [hbt]
        rfl
      have hcount0 : occCount x.id bt.objects = 0 := by
        refine occCount_eq_zero x.id bt.objects (fun o ho hoid => ?_)
        have hidx := wf3 bid hmem (bid, bt)
          (lookupA_mem s.heap bid bt hbt) rfl o ho
        rw [hoid, hx] at hidx
        exact absurd hidx (by simp)
      refine ⟨heapSet s1 bid
          { bt with objects := bt.objects ++ [x], Object := none }, ?_,
        bid, { bt with objects := bt.objects ++ [x], Object := none },
        hlook1, ?_, ?_, ?_, rfl, ?_⟩
      · rw [Add_single]
        simp only [addOne, hlook1, heapGet, hheap1]
      · show bid ∈ s1.batches
        rw [hs1]; exact hmem
      · show lookupA (setA s1.heap bid _) bid = _
        rw [lookupA_setA_self, hheap1]
        rfl
      · show occCount x.id (bt.objects ++ [x]) = 1
        rw [occCount_append, hcount0]
        simp [occCount]
      · intro bid' hmem' hne bt' hbt'
        have hmem'' : bid' ∈ s.batches := by
          rw [show (heapSet s1 bid _).batches = s1.batches from rfl, hs1] at hmem'
          exact hmem'
        have hl' : lookupA s.heap bid' = some bt' := by
          rw [show heapGet (heapSet s1 bid _) bid'
              = lookupA (setA s1.heap bid _) bid' from rfl,
            lookupA_setA_ne _ _ _ _ hne, hs1] at hbt'
          rw [show ({ s with
                heap := setA s.heap bid { bt with objects := bt.objects ++ [x], Object := none }
                batchByObj := insertA s.batchByObj x.id bid } : Batcher).heap
              = setA s.heap bid { bt with objects := bt.objects ++ [x], Object := none }
            from rfl, lookupA_setA_ne _ _ _ _ hne] at hbt'
          exact hbt'
        refine occCount_eq_zero x.id bt'.objects (fun o ho hoid => ?_)
        have hidx := wf3 bid' hmem'' (bid', bt')
          (lookupA_mem s.heap bid' bt' hl') rfl o ho
        rw [hoid, hx] at hidx
        exact absurd hidx (by simp)
    | none =>
      rw [hf] at h1
      replace h1 : newBatch s x = s1 := Option.some.inj h1
      have hs1 : s1 = newBatch s x := h1.symm
      have hlook1 : lookupA s1.batchByObj x.id = some s.nextId := by
        rw [hs1]
        exact lookupA_insertA_self s.batchByObj x.id s.nextId
      have hheapnone : lookupA s.heap s.nextId = none :=
        lookupA_none_of_forall s.heap s.nextId (fun p hp => Nat.ne_of_lt (wf1 p hp))
      have hheap1 : lookupA s1.heap s.nextId = some (newBatchOf x) := by
        rw [hs1]
        show lookupA (s.heap ++ [(s.nextId, newBatchOf x)]) s.nextId = _
        rw [lookupA_append_of_none _ _ _ hheapnone, lookupA_cons, if_pos rfl]
      refine ⟨heapSet s1 s.nextId { newBatchOf x with Object := none }, ?_,
        s.nextId, { newBatchOf x with Object := none },
        hlook1, ?_, ?_, ?_, rfl, ?_⟩
      · rw [Add_single]
        simp only [addOne, hlook1, heapGet, hheap1]
      · show s.nextId ∈ s1.batches
        rw [hs1]
        show s.nextId ∈ s.batches ++ [s.nextId]
        simp
      · show lookupA (setA s1.heap s.nextId _) s.nextId = _
        rw [lookupA_setA_self, hheap1]
        rfl
      · show occCount x.id [x] = 1
        simp [occCount]
      · intro bid' hmem' hne bt' hbt'
        have hmem'' : bid' ∈ s.batches := by
          rw [show (heapSet s1 s.nextId _).batches = s1.batches from rfl, hs1] at hmem'
          rcases List.mem_append.mp hmem' with hin | hin
          · exact hin
          · exact absurd (List.mem_singleton.mp hin) hne
        have hl' : lookupA s.heap bid' = some bt' := by
          rw [show heapGet (heapSet s1 s.nextId _) bid'
              = lookupA (setA s1.heap s.nextId _) bid' from rfl,
            lookupA_setA_ne _ _ _ _ hne, hs1] at hbt'
          rw [show (newBatch s x).heap = s.heap ++ [(s.nextId, newBatchOf x)] from rfl,
            lookupA_append_single_ne _ _ _ _ hne] at hbt'
          exact hbt'
        refine occCount_eq_zero x.id bt'.objects (fun o ho hoid => ?_)
        have hidx := wf3 bid' hmem'' (bid', bt')
          (lookupA_mem s.heap bid' bt' hl') rfl o ho
        rw [hoid, hx] at hidx
        exact absurd hidx (by simp)

/-- Witness for C8 at a concrete input: the empty batcher is well formed,
`cw` is untracked, the first `Add` yields `s1w`, and the theorem's
conclusions follow. -/
theorem add_twice_single_membership_witness :
    ∃ s2, Add s1w [cw] = some s2 ∧
      ∃ bid bt,
        lookupA s2.batchByObj cw.id = some bid ∧
        bid ∈ s2.batches ∧
        heapGet s2 bid = some bt ∧
        occCount cw.id bt.objects = 1 ∧
        bt.Object = none ∧
        ∀ bid' ∈ s2.batches, bid' ≠ bid → ∀ bt',
          heapGet s2 bid' = some bt' → occCount cw.id bt'.objects = 0 :=
  add_twice_single_membership s0w cw
    ⟨fun p hp => absurd hp (List.not_mem_nil p),
     fun b hb => absurd hb (List.not_mem_nil b),
     fun b hb => absurd hb (List.not_mem_nil b)⟩
    (by decide) s1w (by decide)

theorem drawGo_spec (l : List Nat) :
    ∀ (s : Batcher) (log : List Obj) (s' : Batcher),
      l.Nodup → drawGo s l = some (log, s') →
      log = dflat (batchDraws s) l ∧
      s'.batches = s.batches ∧
      s'.batchByObj = s.batchByObj ∧
      s'.nextId = s.nextId ∧
      (∀ bid, bid ∉ l → heapGet s' bid = heapGet s bid) ∧
      (∀ bid ∈ l, heapGet s' bid = (heapGet s bid).map refreshed) ∧
      (∀ bid ∈ l, ∀ bt, heapGet s bid = some bt → bt.meshType.isSome →
        bt.Object = none → (mergeObjects false bt.objects).isSome) := by
  induction l with
  | nil =>
    intro s log s' _ h
    simp only [drawGo, Option.some.injEq, Prod.mk.injEq] at h
    obtain ⟨rfl, rfl⟩ := h
    refine ⟨rfl, rfl, rfl, rfl, fun _ _ => rfl, ?_, ?_⟩
    · intro bid hb; exact absurd hb (List.not_mem_nil bid)
    · intro bid hb; exact absurd hb (List.not_mem_nil bid)
  | cons bid rest ih =>
    intro s log s' hnd h
    obtain ⟨hnotin, hndrest⟩ := List.nodup_cons.mp hnd
    simp only [drawGo] at h
    cases hg : heapGet s bid with
    | none =>
      simp only [hg] at h
      obtain ⟨hlog, hb, hm, hn, hout, hin, hmg⟩ := ih s log s' hndrest h
      refine ⟨?_, hb, hm, hn, ?_, ?_, ?_⟩
      · rw [hlog]
        show _ = batchDraws s bid ++ dflat (batchDraws s) rest
        rw [show batchDraws s bid = drawsOf (heapGet s bid) from rfl, hg]
        rfl
      · intro b hbnot
        exact hout b (fun hmem => hbnot (List.mem_cons_of_mem bid hmem))
      · intro b hbmem
        rcases List.mem_cons.mp hbmem with rfl | hbmem
        · rw [hout b hnotin, hg]; rfl
        · exact hin b hbmem
      · intro b hbmem bt hbt hs ho
        rcases List.mem_cons.mp hbmem with rfl | hbmem
        · rw [hg] at hbt; exact absurd hbt (by simp)
        · exact hmg b hbmem bt hbt hs ho
    | some bt =>
      simp only [hg] at h
      by_cases hmt : bt.meshType.isNone
      · rw [if_pos hmt] at h
        cases hrec : drawGo s rest with
        | none => rw [hrec] at h; exact absurd h (by simp)
        | some p =>
          obtain ⟨log0, st⟩ := p
          rw [hrec] at h
          simp only [Option.some.injEq, Prod.mk.injEq] at h
          obtain ⟨hlogeq, rfl⟩ := h
          obtain ⟨hlog, hb, hm, hn, hout, hin, hmg⟩ := ih s log0 st hndrest hrec
          refine ⟨?_, hb, hm, hn, ?_, ?_, ?_⟩
          · rw [← hlogeq, hlog]
            show _ = batchDraws s bid ++ dflat (batchDraws s) rest
            rw [show batchDraws s bid = drawsOf (heapGet s bid) from rfl, hg,
              show drawsOf (some bt) = if bt.meshType.isNone then bt.objects
                else match bt.Object with
                  | some m => [m]
                  | none =>
                    match mergeObjects false bt.objects with
                    | some m => [m]
                    | none => [] from rfl,
              if_pos hmt]
          · intro b hbnot
            exact hout b (fun hmem => hbnot (List.mem_cons_of_mem bid hmem))
          · intro b hbmem
            rcases List.mem_cons.mp hbmem with rfl | hbmem
            · rw [hout b hnotin, hg]
              show some bt = some (refreshed bt)
              unfold refreshed
              rw [if_pos (by rw [hmt]; rfl)]
            · exact hin b hbmem
          · intro b hbmem bt0 hbt0 hs0 ho0
            rcases List.mem_cons.mp hbmem with rfl | hbmem
            · rw [hg] at hbt0
              replace hbt0 := Option.some.inj hbt0
              rw [← hbt0] at hs0
              rw [Option.isNone_iff_eq_none] at hmt
              rw [hmt] at hs0
              exact absurd hs0 (by simp)
            · exact hmg b hbmem bt0 hbt0 hs0 ho0
      · rw [if_neg hmt] at h
        cases ho : bt.Object with
        | some m =>
          simp only [ho] at h
          cases hrec : drawGo s rest with
          | none => rw [hrec] at h; exact absurd h (by simp)
          | some p =>
            obtain ⟨log0, st⟩ := p
            rw [hrec] at h
            simp only [Option.some.injEq, Prod.mk.injEq] at h
            obtain ⟨hlogeq, rfl⟩ := h
            obtain ⟨hlog, hb, hm, hn, hout, hin, hmg⟩ := ih s log0 st hndrest hrec
            refine ⟨?_, hb, hm, hn, ?_, ?_, ?_⟩
            · rw [← hlogeq, hlog]
              show _ = batchDraws s bid ++ dflat (batchDraws s) rest
              rw [show batchDraws s bid = drawsOf (heapGet s bid) from rfl, hg,
                show drawsOf (some bt) = if bt.meshType.isNone then bt.objects
                  else match bt.Object with
                    | some m => [m]
                    | none =>
                      match mergeObjects false bt.objects with
                      | some m => [m]
                      | none => [] from rfl,
                if_neg hmt, ho]
              rfl
            · intro b hbnot
              exact hout b (fun hmem => hbnot (List.mem_cons_of_mem bid hmem))
            · intro b hbmem
              rcases List.mem_cons.mp hbmem with rfl | hbmem
              · rw [hout b hnotin, hg]
                show some bt = some (refreshed bt)
                unfold refreshed
                rw [if_pos (by rw [ho]; simp)]
              · exact hin b hbmem
            · intro b hbmem bt0 hbt0 hs0 ho0
              rcases List.mem_cons.mp hbmem with rfl | hbmem
              · rw [hg] at hbt0
                replace hbt0 := Option.some.inj hbt0
                rw [← hbt0, ho] at ho0
                exact absurd ho0 (by simp)
              · exact hmg b hbmem bt0 hbt0 hs0 ho0
        | none =>
          simp only [ho] at h
          cases hmerge : mergeObjects false bt.objects with
          | none => simp only [hmerge] at h; exact absurd h (by simp)
          | some m =>
            simp only [hmerge] at h
            cases hrec : drawGo (heapSet s bid { bt with Object := some m }) rest with
            | none => rw [hrec] at h; exact absurd h (by simp)
            | some p =>
              obtain ⟨log0, st⟩ := p
              rw [hrec] at h
              simp only [Option.some.injEq, Prod.mk.injEq] at h
              obtain ⟨hlogeq, rfl⟩ := h
              obtain ⟨hlog, hb, hm, hn, hout, hin, hmg⟩ :=
                ih (heapSet s bid { bt with Object := some m }) log0 st hndrest hrec
              have hne : ∀ b ∈ rest, b ≠ bid :=
                fun b hbmem hbeq => hnotin (hbeq ▸ hbmem)
              have hheapeq : ∀ b ∈ rest,
                  heapGet (heapSet s bid { bt with Object := some m }) b
                    = heapGet s b := by
                intro b hbmem
                show lookupA (setA s.heap bid _) b = lookupA s.heap b
                exact lookupA_setA_ne s.heap bid b _ (hne b hbmem)
              refine ⟨?_, hb, hm, hn, ?_, ?_, ?_⟩
              · rw [← hlogeq, hlog,
                  dflat_congr (batchDraws (heapSet s bid { bt with Object := some m }))
                    (batchDraws s) rest
                    (fun b hbmem => congrArg drawsOf (hheapeq b hbmem))]
                show _ = batchDraws s bid ++ dflat (batchDraws s) rest
                rw [show batchDraws s bid = drawsOf (heapGet s bid) from rfl, hg,
                  show drawsOf (some bt) = if bt.meshType.isNone then bt.objects
                    else match bt.Object with
                      | some m => [m]
                      | none =>
                        match mergeObjects false bt.objects with
                        | some m => [m]
                        | none => [] from rfl,
                  if_neg hmt, ho, hmerge]
                rfl
              · intro b hbnot
                have hbrest : b ∉ rest := fun hmem => hbnot (List.mem_cons_of_mem bid hmem)
                have hbne : b ≠ bid := fun hbeq => hbnot (hbeq ▸ List.mem_cons_self bid rest)
                rw [hout b hbrest]
                show lookupA (setA s.heap bid _) b = lookupA s.heap b
                exact lookupA_setA_ne s.heap bid b _ hbne
              · intro b hbmem
                rcases List.mem_cons.mp hbmem with rfl | hbmem
                · rw [hout b hnotin]
                  show lookupA (setA s.heap b _) b = (lookupA s.heap b).map refreshed
                  rw [lookupA_setA_self,
                    show lookupA s.heap b = heapGet s b from rfl, hg]
                  show some { bt with Object := some m } = some (refreshed bt)
                  unfold refreshed
                  rw [if_neg (by rw [ho]; simpa using hmt), hmerge]
                · rw [hin b hbmem, hheapeq b hbmem]
              · intro b hbmem bt0 hbt0 hs0 ho0
                rcases List.mem_cons.mp hbmem with rfl | hbmem
                · rw [hg] at hbt0
                  replace hbt0 := Option.some.inj hbt0
                  rw [← hbt0, hmerge]
                  rfl
                · refine hmg b hbmem bt0 ?_ hs0 ho0
                  rw [hheapeq b hbmem]
                  exact hbt0

theorem refreshed_fields (bt : BatchT) :
    (refreshed bt).objects = bt.objects ∧
    (refreshed bt).stateType = bt.stateType ∧
    (refreshed bt).shaderType = bt.shaderType ∧
    (refreshed bt).textureType = bt.textureType ∧
    (refreshed bt).meshType = bt.meshType := by
  unfold refreshed
  split
  · exact ⟨rfl, rfl, rfl, rfl, rfl⟩
  · exact ⟨rfl, rfl, rfl, rfl, rfl⟩

theorem refreshed_object (bt : BatchT)
    (hm : bt.meshType.isSome → bt.Object = none → (mergeObjects false bt.objects).isSome) :
    (refreshed bt).Object = bt.Object ∨
      (bt.Object = none ∧ ∃ m, (refreshed bt).Object = some m) := by
  unfold refreshed
  by_cases hc : (bt.meshType.isNone || bt.Object.isSome) = true
  · rw [if_pos hc]
    exact Or.inl rfl
  · rw [if_neg hc]
    have hmt : bt.meshType.isSome := by
      cases hmm : bt.meshType with
      | none => exact absurd (by rw [hmm]; simp) hc
      | some t => rfl
    have ho : bt.Object = none := by
      cases hoo : bt.Object with
      | none => rfl
      | some k => exact absurd (by rw [hoo]; simp) hc
    obtain ⟨m, hm'⟩ := Option.isSome_iff_exists.mp (hm hmt ho)
    refine Or.inr ⟨ho, m, ?_⟩
    show mergeObjects false bt.objects = some m
    exact hm'

/-- Claim C5: when `DrawTo` returns (no panic), the ordered draw calls
are exactly, per live batch in order, one call per member for a batch
with the mixed / undefined mesh type and one call of the (possibly just
recomputed) merged object otherwise — that is what `batchDraws` /
`drawsOf` say — and each live batch's cache is updated by `refreshed`:
recomputed through the unchecked merge exactly when it was `none`,
untouched otherwise. -/
theorem drawTo_draw_calls
    (s : Batcher) (log : List Obj) (s' : Batcher)
    (hnd : s.batches.Nodup) (h : DrawTo s = some (log, s')) :
    log = dflat (batchDraws s) s.batches ∧
    ∀ bid ∈ s.batches, heapGet s' bid = (heapGet s bid).map refreshed := by
  obtain ⟨h1, _, _, _, _, h6, _⟩ := drawGo_spec s.batches s log s' hnd h
  exact ⟨h1, h6⟩

/-- Witness for C5 at a concrete input: drawing `sA1` (one live batch,
stale cache) succeeds with the single merged draw and the refreshed
cache. -/
theorem drawTo_draw_calls_witness :
    [mergedA1] = dflat (batchDraws sA1) sA1.batches ∧
    ∀ bid ∈ sA1.batches, heapGet sA1d bid = (heapGet sA1 bid).map refreshed :=
  drawTo_draw_calls sA1 [mergedA1] sA1d (by decide) (by decide)

/-- Claim C9: when `DrawTo` returns, the live batch list, the
object-to-batch index, every batch's member list and classification key
are unchanged; the only change is that a batch's cached merged object may
go from `none` to a freshly merged value. -/
theorem drawTo_preserves_membership
    (s : Batcher) (log : List Obj) (s' : Batcher)
    (hnd : s.batches.Nodup) (h : DrawTo s = some (log, s')) :
    s'.batches = s.batches ∧ s'.batchByObj = s.batchByObj ∧
    ∀ bid bt, heapGet s bid = some bt →
      ∃ bt', heapGet s' bid = some bt' ∧
        bt'.objects = bt.objects ∧ bt'.stateType = bt.stateType ∧
        bt'.shaderType = bt.shaderType ∧ bt'.textureType = bt.textureType ∧
        bt'.meshType = bt.meshType ∧
        (bt'.Object = bt.Object ∨ (bt.Object = none ∧ ∃ m, bt'.Object = some m)) := by
  obtain ⟨_, h2, h3, _, h5, h6, h7⟩ := drawGo_spec s.batches s log s' hnd h
  refine ⟨h2, h3, fun bid bt hbt => ?_⟩
  by_cases hmem : bid ∈ s.batches
  · have hh : heapGet s' bid = some (refreshed bt) := by
      rw [h6 bid hmem, hbt]
      rfl
    obtain ⟨f1, f2, f3, f4, f5⟩ := refreshed_fields bt
    exact ⟨refreshed bt, hh, f1, f2, f3, f4, f5,
      refreshed_object bt (fun hs ho => h7 bid hmem bt hbt hs ho)⟩
  · have hh : heapGet s' bid = some bt := by
      rw [h5 bid hmem, hbt]
    exact ⟨bt, hh, rfl, rfl, rfl, rfl, rfl, Or.inl rfl⟩

/-- Witness for C9 at a concrete input: one `DrawTo` pass over `sA1`
leaves the batch list, index and membership unchanged and only fills the
cache. -/
theorem drawTo_preserves_membership_witness :
    sA1d.batches = sA1.batches ∧ sA1d.batchByObj = sA1.batchByObj ∧
    ∀ bid bt, heapGet sA1 bid = some bt →
      ∃ bt', heapGet sA1d bid = some bt' ∧
        bt'.objects = bt.objects ∧ bt'.stateType = bt.stateType ∧
        bt'.shaderType = bt.shaderType ∧ bt'.textureType = bt.textureType ∧
        bt'.meshType = bt.meshType ∧
        (bt'.Object = bt.Object ∨ (bt.Object = none ∧ ∃ m, bt'.Object = some m)) :=
  drawTo_preserves_membership sA1 [mergedA1] sA1d (by decide) (by decide)

/-- Claim C10: a batch's texture key is the element-wise value of the
object's texture slice at creation time (`newBatchTexKey`), so replacing
the elements of that client slice afterwards (`storeUpdate` at
`x.texSid`) does not change the outcome of `matches` for any object
whose own texture slice is a different one. -/
theorem texture_copy_isolates_batch_key
    (σ : TexStore) (x : ObjS) (L : List Nat) (o : ObjS)
    (h : o.texSid ≠ x.texSid)
    (shaderK stateK : Nat) (mtK : Option MeshType) :
    matchesS shaderK (newBatchTexKey x σ) stateK mtK o (storeUpdate σ x.texSid L)
      = matchesS shaderK (newBatchTexKey x σ) stateK mtK o σ := by
  have hread : storeUpdate σ x.texSid L o.texSid = σ o.texSid := by
    unfold storeUpdate
    rw [if_neg h]
  unfold matchesS
  rw [hread]

/-- Witness for C10 at a concrete input: slices `0` (mutated) and `1`
(read) are distinct, so the match outcome is unchanged. -/
theorem texture_copy_isolates_batch_key_witness :
    matchesS 0 (newBatchTexKey xS sigma0) 0 none oS (storeUpdate sigma0 xS.texSid [5])
      = matchesS 0 (newBatchTexKey xS sigma0) 0 none oS sigma0 :=
  texture_copy_isolates_batch_key sigma0 xS [5] oS (by decide) 0 0 none

end Gfx
